import Mathlib

/-!
Shallow embedding of the session scheduling engine of the event-schedulr
repository (Convex backend, sessions module): the slot-suggestion algorithm
`findNextAvailableSlot`, the mutations `createSession`,
`createMultipleSessions`, `updateSession`, and the query
`getCurrentSession`, over an explicit database state.

Timestamps are milliseconds since the epoch, embedded as `Int`.
JavaScript `Array.prototype.sort` (a stable sort) is embedded as a stable
insertion sort with the same comparator semantics.
-/

/-- Two-digit zero padding of a minute value, as produced by the
"2-digit" minute option of `toLocaleTimeString`. -/
def pad2 (n : Nat) : String :=
  if n < 10 then "0" ++ toString n else toString n

/-- Embedding of `formatTimeForError`: renders a timestamp as an en-US
12-hour clock time ("h:mm AM/PM"); the source delegates to
`Date.toLocaleTimeString("en-US", ...)`, rendered here at UTC. -/
def formatTimeForError (timestamp : Int) : String :=
  let minutesOfDay := ((timestamp / 60000) % 1440).toNat
  let h24 := minutesOfDay / 60
  let m := minutesOfDay % 60
  let suffix := if h24 < 12 then "AM" else "PM"
  let h12 := h24 % 12
  let h := if h12 == 0 then 12 else h12
  toString h ++ ":" ++ pad2 m ++ " " ++ suffix

/-- Embedding of `formatDateForError` ("MMM d" date rendering at UTC);
only the month/day of the timestamp day number matter to the callers. -/
def formatDateForError (timestamp : Int) : String :=
  "day " ++ toString (timestamp / 86400000)

/-- The `TimeSlot` interface of the source: the minimal session shape the
suggestion engine consumes. -/
structure TimeSlot where
  startTime : Int
  endTime : Int
  title : String
deriving DecidableEq, Repr

/-- Stable insertion of a slot into a list sorted ascending by
`startTime`; an incoming earlier-listed element goes before elements with
an equal key, matching JavaScript stable sort tie behavior. -/
def insertSlotByStart (s : TimeSlot) : List TimeSlot → List TimeSlot
  | [] => [s]
  | t :: ts =>
    if s.startTime ≤ t.startTime then s :: t :: ts
    else t :: insertSlotByStart s ts

/-- Embedding of `[...existingSessions].sort((a, b) => a.startTime - b.startTime)`:
stable sort ascending by `startTime`. -/
def sortSlotsByStart : List TimeSlot → List TimeSlot
  | [] => []
  | s :: ss => insertSlotByStart s (sortSlotsByStart ss)

/-- Embedding of `Array.prototype.join(", ")`. -/
def joinComma : List String → String
  | [] => ""
  | [x] => x
  | x :: xs => x ++ ", " ++ joinComma xs

/-- Embedding of the gap-scan loop of `findNextAvailableSlot`: walk
consecutive pairs of the sorted list and return the message for the first
gap at least as large as the requested duration. -/
def gapScan (sessionDuration : Int) : List TimeSlot → Option String
  | a :: b :: rest =>
    if b.startTime - a.endTime ≥ sessionDuration then
      some ("Try " ++ formatTimeForError a.endTime ++ " - " ++
        formatTimeForError (a.endTime + sessionDuration))
    else gapScan sessionDuration (b :: rest)
  | _ => none

/-- Embedding of the fallback tail of `findNextAvailableSlot`: list up to
the first three sorted slots as already booked, or the generic message
when that rendering is empty. -/
def fallbackMessage (sortedSessions : List TimeSlot) : String :=
  let bookedSlots := joinComma ((sortedSessions.take 3).map fun s =>
    formatTimeForError s.startTime ++ " - " ++ formatTimeForError s.endTime)
  if bookedSlots == "" then "Please choose a different time slot"
  else "Already booked: " ++ bookedSlots ++ ". Please choose a different time"

/-- Embedding of the tail probe of `findNextAvailableSlot` followed by the
fallback: if the last sorted session leaves room before the event end,
suggest starting at its end, otherwise fall back. -/
def tailThenFallback (sessionDuration : Int) (sortedSessions : List TimeSlot)
    (eventEndsAt : Int) : String :=
  match sortedSessions.getLast? with
  | some lastSession =>
    if lastSession.endTime + sessionDuration ≤ eventEndsAt then
      "Try starting at " ++ formatTimeForError lastSession.endTime
    else fallbackMessage sortedSessions
  | none => fallbackMessage sortedSessions

/-- Embedding of `findNextAvailableSlot`: sort the existing sessions by
start time, try the immediately-after probe, then the gap scan, then the
tail probe, then the fallback. -/
def findNextAvailableSlot (sessionDuration : Int)
    (existingSessions : List TimeSlot) (eventEndsAt : Int)
    (conflictingSession : TimeSlot) : String :=
  let sortedSessions := sortSlotsByStart existingSessions
  let afterConflict := conflictingSession.endTime
  if decide (afterConflict + sessionDuration ≤ eventEndsAt) &&
      !(sortedSessions.any fun s =>
        decide (s.startTime < afterConflict + sessionDuration) &&
        decide (s.endTime > afterConflict) &&
        (s.startTime != conflictingSession.startTime)) then
    "Try starting at " ++ formatTimeForError afterConflict
  else
    match gapScan sessionDuration sortedSessions with
    | some msg => msg
    | none => tailThenFallback sessionDuration sortedSessions eventEndsAt

/-- The session `type` enum of the schema; `breakTime` embeds the literal
"break" of the source. -/
inductive SessionType where
  | talk | workshop | breakTime | meal | activity | ceremony | other
deriving DecidableEq, Repr

/-- The session `status` enum of the schema. -/
inductive SessionStatus where
  | postponed | upcoming | ongoing | completed | cancelled
deriving DecidableEq, Repr

/-- An event document: the fields the sessions module reads. -/
structure Event where
  startsAt : Int
  endsAt : Int
deriving DecidableEq, Repr

/-- A session document as stored in the `sessions` table. -/
structure Session where
  eventId : Nat
  title : String
  description : Option String
  date : Int
  startTime : Int
  endTime : Int
  location : Option String
  speaker : Option String
  type : SessionType
  status : SessionStatus
deriving DecidableEq, Repr

/-- The argument shape of `sessionDataValidator` (also the argument list of
`createSession`, minus the event id). -/
structure SessionData where
  title : String
  description : Option String
  date : Int
  startTime : Int
  endTime : Int
  location : Option String
  speaker : Option String
  type : SessionType
  status : SessionStatus
deriving DecidableEq, Repr

/-- The session document inserted for a given argument record. -/
def SessionData.toSession (eventId : Nat) (d : SessionData) : Session :=
  { eventId := eventId, title := d.title, description := d.description,
    date := d.date, startTime := d.startTime, endTime := d.endTime,
    location := d.location, speaker := d.speaker, type := d.type,
    status := d.status }

/-- A session viewed through the `TimeSlot` interface, as the handlers pass
session documents structurally to `findNextAvailableSlot`. -/
def Session.toSlot (s : Session) : TimeSlot :=
  { startTime := s.startTime, endTime := s.endTime, title := s.title }

/-- The errors thrown by the sessions module, as structured values; each
constructor stands for one `throw new Error(...)` site and carries the data
interpolated into its message. -/
inductive SessionError where
  | eventNotFound
  | eventAlreadyEnded
  | emptyBatch
  | startsBeforeEvent (title : String)
  | endsAfterEvent (title : String)
  | invalidTimeRange (title : String)
  | overlapWithExisting (candidateTitle : String) (blocking : Session)
      (suggestion : String)
  | overlapWithinBatch (titleA titleB : String)
  | sessionNotFound
deriving DecidableEq, Repr

/-- The Convex database state the sessions module touches: the `events`
and `sessions` tables (id, document) in insertion order, plus a fresh-id
counter. -/
structure DB where
  events : List (Nat × Event)
  sessions : List (Nat × Session)
  nextId : Nat
deriving DecidableEq, Repr

/-- Embedding of `ctx.db.get(eventId)`. -/
def getEvent (db : DB) (eventId : Nat) : Option Event :=
  (db.events.find? fun p => p.1 == eventId).map (·.2)

/-- Embedding of `ctx.db.get(sessionId)`. -/
def getSession (db : DB) (sessionId : Nat) : Option Session :=
  (db.sessions.find? fun p => p.1 == sessionId).map (·.2)

/-- Embedding of the `by_event` index query: the sessions of an event in
table order. -/
def sessionsByEvent (db : DB) (eventId : Nat) : List Session :=
  (db.sessions.filter fun p => p.2.eventId == eventId).map (·.2)

/-- Embedding of `ctx.db.insert("sessions", ...)`: append with a fresh id. -/
def insertSession (db : DB) (s : Session) : DB × Nat :=
  let db2 : DB :=
    { db with
      sessions := db.sessions ++ [(db.nextId, s)]
      nextId := db.nextId + 1 }
  (db2, db.nextId)

/-- The strict-overlap test the handlers inline at every conflict check:
`a.startTime < b.endTime && a.endTime > b.startTime`. -/
def overlaps (aStart aEnd bStart bEnd : Int) : Bool :=
  decide (aStart < bEnd) && decide (aEnd > bStart)

/-- Embedding of `createSession.handler`. The handler consults the clock
(`Date.now()`), passed here as `now`; a throw leaves the state unchanged
because nothing is inserted before validation completes. -/
def createSession (now : Int) (db : DB) (eventId : Nat) (args : SessionData) :
    DB × Except SessionError Session :=
  match getEvent db eventId with
  | none => (db, .error .eventNotFound)
  | some event =>
    if now > event.endsAt then (db, .error .eventAlreadyEnded)
    else
      let existingSessions := sessionsByEvent db eventId
      match existingSessions.find? (fun e =>
          overlaps args.startTime args.endTime e.startTime e.endTime) with
      | some existing =>
        let sessionDuration := args.endTime - args.startTime
        let suggestion := findNextAvailableSlot sessionDuration
          (existingSessions.map Session.toSlot) event.endsAt existing.toSlot
        (db, .error (.overlapWithExisting args.title existing suggestion))
      | none =>
        let inserted := insertSession db (args.toSession eventId)
        (inserted.1, .ok (args.toSession eventId))

/-- Embedding of the per-candidate validation loop of
`createMultipleSessions` (bounds checks, range check, then the scan
against the existing store), returning the first error in candidate
order. -/
def validateAgainstExisting (event : Event) (existingSessions : List Session) :
    List SessionData → Option SessionError
  | [] => none
  | sd :: rest =>
    if sd.startTime < event.startsAt then some (.startsBeforeEvent sd.title)
    else if sd.endTime > event.endsAt then some (.endsAfterEvent sd.title)
    else if sd.startTime ≥ sd.endTime then some (.invalidTimeRange sd.title)
    else
      match existingSessions.find? (fun e =>
          overlaps sd.startTime sd.endTime e.startTime e.endTime) with
      | some existing =>
        some (.overlapWithExisting sd.title existing
          (findNextAvailableSlot (sd.endTime - sd.startTime)
            (existingSessions.map Session.toSlot) event.endsAt
            existing.toSlot))
      | none => validateAgainstExisting event existingSessions rest

/-- Embedding of the pairwise loop of `createMultipleSessions`: the first
overlapping pair (i, j), i before j, in candidate order. -/
def firstPairOverlap : List SessionData → Option SessionError
  | [] => none
  | a :: rest =>
    match rest.find? (fun b =>
        overlaps a.startTime a.endTime b.startTime b.endTime) with
    | some b => some (.overlapWithinBatch a.title b.title)
    | none => firstPairOverlap rest

/-- Embedding of the insertion loop of `createMultipleSessions`. -/
def insertAll (db : DB) (eventId : Nat) :
    List SessionData → DB × List Session
  | [] => (db, [])
  | sd :: rest =>
    let step := insertSession db (sd.toSession eventId)
    let tail := insertAll step.1 eventId rest
    (tail.1, sd.toSession eventId :: tail.2)

/-- Embedding of `createMultipleSessions.handler`: guards, phase-1
validation of every candidate against the existing store, phase-2
pairwise validation, and only then the inserts. -/
def createMultipleSessions (now : Int) (db : DB) (eventId : Nat)
    (sessionsArgs : List SessionData) :
    DB × Except SessionError (List Session) :=
  match getEvent db eventId with
  | none => (db, .error .eventNotFound)
  | some event =>
    if now > event.endsAt then (db, .error .eventAlreadyEnded)
    else if sessionsArgs.length == 0 then (db, .error .emptyBatch)
    else
      let existingSessions := sessionsByEvent db eventId
      match validateAgainstExisting event existingSessions sessionsArgs with
      | some err => (db, .error err)
      | none =>
        match firstPairOverlap sessionsArgs with
        | some err => (db, .error err)
        | none =>
          let inserted := insertAll db eventId sessionsArgs
          (inserted.1, .ok inserted.2)

/-- The argument shape of `updateSession`: every field optional except
`status`, which the source declares as a plain union. -/
structure SessionUpdate where
  title : Option String
  description : Option String
  date : Option Int
  startTime : Option Int
  endTime : Option Int
  location : Option String
  speaker : Option String
  type : Option SessionType
  status : SessionStatus
deriving DecidableEq, Repr

/-- Embedding of `ctx.db.patch(sessionId, updates)`: each provided field
replaces the stored one, absent fields are kept. -/
def patchSession (s : Session) (u : SessionUpdate) : Session :=
  { eventId := s.eventId,
    title := u.title.getD s.title,
    description := (u.description.map some).getD s.description,
    date := u.date.getD s.date,
    startTime := u.startTime.getD s.startTime,
    endTime := u.endTime.getD s.endTime,
    location := (u.location.map some).getD s.location,
    speaker := (u.speaker.map some).getD s.speaker,
    type := u.type.getD s.type,
    status := u.status }

/-- The database after patching one session document in place. -/
def patchInDB (db : DB) (sessionId : Nat) (u : SessionUpdate) : DB :=
  { db with sessions := db.sessions.map fun p =>
      if p.1 == sessionId then (p.1, patchSession p.2 u) else p }

/-- Embedding of `updateSession.handler`: existence check, then an
unconditional patch of the provided fields. -/
def updateSession (db : DB) (sessionId : Nat) (u : SessionUpdate) :
    DB × Except SessionError Nat :=
  match getSession db sessionId with
  | none => (db, .error .sessionNotFound)
  | some _ => (patchInDB db sessionId u, .ok sessionId)

/-- Stable insertion of a session into a list sorted descending by
`startTime`, matching the comparator `(a, b) => b.startTime - a.startTime`
of `getCurrentSession` under JavaScript stable sort. -/
def insertSessionDescByStart (s : Session) : List Session → List Session
  | [] => [s]
  | t :: ts =>
    if s.startTime ≥ t.startTime then s :: t :: ts
    else t :: insertSessionDescByStart s ts

/-- Stable sort of sessions descending by `startTime`. -/
def sortSessionsDescByStart : List Session → List Session
  | [] => []
  | s :: ss => insertSessionDescByStart s (sortSessionsDescByStart ss)

/-- Embedding of `getCurrentSession.handler`: null when the event is
missing or already over, else the latest-starting session whose window
contains `now` (both endpoints inclusive), null when there is none. -/
def getCurrentSession (now : Int) (db : DB) (eventId : Nat) :
    Option Session :=
  match getEvent db eventId with
  | none => none
  | some event =>
    if now > event.endsAt then none
    else
      let sessions := sessionsByEvent db eventId
      let currentSessions := sessions.filter fun s =>
        decide (s.startTime ≤ now) && decide (s.endTime ≥ now)
      if currentSessions.length == 0 then none
      else (sortSessionsDescByStart currentSessions).head?

/-- Reduction of `createSession` once the event is found and not over:
the outcome is decided by the first-overlap scan alone. -/
theorem createSession_reduce (now : Int) (db : DB) (eventId : Nat)
    (args : SessionData) (event : Event)
    (hget : getEvent db eventId = some event)
    (hnow : ¬ now > event.endsAt) :
    createSession now db eventId args =
      match (sessionsByEvent db eventId).find? (fun e =>
          overlaps args.startTime args.endTime e.startTime e.endTime) with
      | some existing =>
        (db, .error (.overlapWithExisting args.title existing
          (findNextAvailableSlot (args.endTime - args.startTime)
            ((sessionsByEvent db eventId).map Session.toSlot) event.endsAt
            existing.toSlot)))
      | none => ((insertSession db (args.toSession eventId)).1,
          .ok (args.toSession eventId)) := by
  unfold createSession
  rw [hget]
  simp only [if_neg hnow]

/-- C1 counterexample: a candidate with `startTime = 50 > endTime = 40`,
also starting before the event (window [100, 10000]), is accepted by the
single-session path (no `InvalidRange` check at all there), and on the
batch path the reported error is `startsBeforeEvent`, not the
`invalidTimeRange` the claimed check order (range check first) would give. -/
theorem c1_check_order_cex :
    (createSession 0 ⟨[(1, ⟨100, 10000⟩)], [], 10⟩ 1
        ⟨"Bad", none, 0, 50, 40, none, none, .talk, .upcoming⟩).2 =
      .ok (SessionData.toSession 1
        ⟨"Bad", none, 0, 50, 40, none, none, .talk, .upcoming⟩) ∧
    (createMultipleSessions 0 ⟨[(1, ⟨100, 10000⟩)], [], 10⟩ 1
        [⟨"Bad", none, 0, 50, 40, none, none, .talk, .upcoming⟩]).2 =
      .error (.startsBeforeEvent "Bad") := by
  constructor <;> rfl

/-- C1 (amended): on the batch path each candidate is checked in the order
start-before-event, end-after-event, invalid-range, and only when all
three pass is the overlap scan against the existing store consulted for
that candidate; the single-session path performs none of the three checks
and is decided by the overlap scan alone; and a batch validation error is
the error reported by `createMultipleSessions`. -/
theorem c1_check_order_amended :
    (∀ (event : Event) (ex : List Session) (sd : SessionData)
        (rest : List SessionData),
      (sd.startTime < event.startsAt →
        validateAgainstExisting event ex (sd :: rest) =
          some (.startsBeforeEvent sd.title)) ∧
      (event.startsAt ≤ sd.startTime → event.endsAt < sd.endTime →
        validateAgainstExisting event ex (sd :: rest) =
          some (.endsAfterEvent sd.title)) ∧
      (event.startsAt ≤ sd.startTime → sd.endTime ≤ event.endsAt →
        sd.endTime ≤ sd.startTime →
        validateAgainstExisting event ex (sd :: rest) =
          some (.invalidTimeRange sd.title)) ∧
      (event.startsAt ≤ sd.startTime → sd.endTime ≤ event.endsAt →
        sd.startTime < sd.endTime →
        ex.find? (fun e =>
          overlaps sd.startTime sd.endTime e.startTime e.endTime) = none →
        validateAgainstExisting event ex (sd :: rest) =
          validateAgainstExisting event ex rest)) ∧
    (∀ (now : Int) (db : DB) (eventId : Nat) (args : SessionData)
        (event : Event),
      getEvent db eventId = some event → ¬ now > event.endsAt →
      (sessionsByEvent db eventId).find? (fun e =>
          overlaps args.startTime args.endTime e.startTime e.endTime) = none →
      (createSession now db eventId args).2 = .ok (args.toSession eventId)) ∧
    (∀ (now : Int) (db : DB) (eventId : Nat) (sds : List SessionData)
        (event : Event) (err : SessionError),
      getEvent db eventId = some event → ¬ now > event.endsAt →
      sds ≠ [] →
      validateAgainstExisting event (sessionsByEvent db eventId) sds =
        some err →
      (createMultipleSessions now db eventId sds).2 = .error err) := by
  refine ⟨fun event ex sd rest => ⟨?_, ?_, ?_, ?_⟩, ?_, ?_⟩
  · intro h1
    unfold validateAgainstExisting
    rw [if_pos h1]
  · intro h1 h2
    unfold validateAgainstExisting
    rw [if_neg (by omega), if_pos (by omega)]
  · intro h1 h2 h3
    unfold validateAgainstExisting
    rw [if_neg (by omega), if_neg (by omega), if_pos (by omega)]
  · intro h1 h2 h3 h4
    conv_lhs => rw [validateAgainstExisting]
    rw [if_neg (by omega), if_neg (by omega), if_neg (by omega), h4]
  · intro now db eventId args event hget hnow hfind
    rw [createSession_reduce now db eventId args event hget hnow, hfind]
  · intro now db eventId sds event err hget hnow hne hval
    unfold createMultipleSessions
    rw [hget]
    simp only [if_neg hnow]
    rw [if_neg (by simp [List.length_eq_zero, hne]), hval]

/-- C1 witness: the amended check-order theorem applied to a concrete
candidate starting before a concrete event window. -/
theorem c1_check_order_witness :
    validateAgainstExisting ⟨100, 200⟩ []
        [⟨"A", none, 0, 50, 40, none, none, .talk, .upcoming⟩] =
      some (.startsBeforeEvent "A") :=
  (c1_check_order_amended.1 ⟨100, 200⟩ []
    ⟨"A", none, 0, 50, 40, none, none, .talk, .upcoming⟩ []).1 (by decide)

/-- C6 counterexample: with the event window [0, 100] and identical
arguments, `createSession` run at clock value 0 accepts while run at
clock value 101 it reports the event as already ended, so the handler
outcome does depend on the clock. -/
theorem c6_clock_cex :
    (createSession 0 ⟨[(1, ⟨0, 100⟩)], [], 0⟩ 1
        ⟨"S", none, 0, 10, 20, none, none, .talk, .upcoming⟩).2 =
      .ok (SessionData.toSession 1
        ⟨"S", none, 0, 10, 20, none, none, .talk, .upcoming⟩) ∧
    (createSession 101 ⟨[(1, ⟨0, 100⟩)], [], 0⟩ 1
        ⟨"S", none, 0, 10, 20, none, none, .talk, .upcoming⟩).2 =
      .error .eventAlreadyEnded := by
  constructor <;> rfl

/-- C6 (amended): the clock is consulted only by the already-ended guard;
two clock values that agree on `now > event.endsAt` for the looked-up
event give identical results of `createSession` and of
`createMultipleSessions` on all arguments. -/
theorem c6_clock_only_guard :
    ∀ (n1 n2 : Int) (db : DB) (eventId : Nat) (args : SessionData)
      (sds : List SessionData),
      (∀ event, getEvent db eventId = some event →
        ((n1 > event.endsAt) ↔ (n2 > event.endsAt))) →
      createSession n1 db eventId args = createSession n2 db eventId args ∧
      createMultipleSessions n1 db eventId sds =
        createMultipleSessions n2 db eventId sds := by
  intro n1 n2 db eventId args sds h
  constructor
  · unfold createSession
    cases hget : getEvent db eventId with
    | none => rfl
    | some event =>
      dsimp only
      by_cases hn : n1 > event.endsAt
      · rw [if_pos hn, if_pos ((h event hget).mp hn)]
      · rw [if_neg hn, if_neg (fun hc => hn ((h event hget).mpr hc))]
  · unfold createMultipleSessions
    cases hget : getEvent db eventId with
    | none => rfl
    | some event =>
      dsimp only
      by_cases hn : n1 > event.endsAt
      · rw [if_pos hn, if_pos ((h event hget).mp hn)]
      · rw [if_neg hn, if_neg (fun hc => hn ((h event hget).mpr hc))]

/-- C6 witness: the guard-agreement theorem applied at two distinct clock
values on a concrete database. -/
theorem c6_clock_only_guard_witness :
    createSession 3 ⟨[(1, ⟨0, 100⟩)], [], 0⟩ 1
        ⟨"S", none, 0, 10, 20, none, none, .talk, .upcoming⟩ =
      createSession 7 ⟨[(1, ⟨0, 100⟩)], [], 0⟩ 1
        ⟨"S", none, 0, 10, 20, none, none, .talk, .upcoming⟩ :=
  (c6_clock_only_guard 3 7 ⟨[(1, ⟨0, 100⟩)], [], 0⟩ 1
    ⟨"S", none, 0, 10, 20, none, none, .talk, .upcoming⟩ []
    (by intro event hget; cases hget; simp)).1

/-- C2: the conflict predicate used by the handlers is strict overlap
(`candidate.startTime < existing.endTime` and
`candidate.endTime > existing.startTime`); against a single stored
session, the candidate is rejected exactly when that predicate holds, a
candidate touching the stored end (`startTime = existing.endTime`) is
accepted, and a candidate starting at `existing.endTime - 1` (with a
well-formed window on each side) is rejected as a conflict. -/
theorem c2_strict_overlap_boundary :
    (∀ aS aE bS bE : Int, overlaps aS aE bS bE = true ↔ (aS < bE ∧ aE > bS)) ∧
    ∀ (now : Int) (db : DB) (eventId : Nat) (args : SessionData)
      (event : Event) (e : Session),
      getEvent db eventId = some event → ¬ now > event.endsAt →
      sessionsByEvent db eventId = [e] →
      ((∃ sugg, (createSession now db eventId args).2 =
          .error (.overlapWithExisting args.title e sugg)) ↔
        (args.startTime < e.endTime ∧ args.endTime > e.startTime)) ∧
      (args.startTime = e.endTime →
        (createSession now db eventId args).2 =
          .ok (args.toSession eventId)) ∧
      (e.startTime < e.endTime → args.startTime = e.endTime - 1 →
        args.startTime < args.endTime →
        ∃ sugg, (createSession now db eventId args).2 =
          .error (.overlapWithExisting args.title e sugg)) := by
  have hiff : ∀ aS aE bS bE : Int,
      overlaps aS aE bS bE = true ↔ (aS < bE ∧ aE > bS) := by
    intro aS aE bS bE
    simp [overlaps, decide_eq_true_eq]
  refine ⟨hiff, ?_⟩
  intro now db eventId args event e hget hnow hlist
  have hred := createSession_reduce now db eventId args event hget hnow
  rw [hlist] at hred
  refine ⟨?_, ?_, ?_⟩
  · constructor
    · rintro ⟨sugg, hs⟩
      by_cases hov : overlaps args.startTime args.endTime e.startTime
          e.endTime = true
      · exact (hiff _ _ _ _).mp hov
      · have hfind : List.find? (fun x =>
            overlaps args.startTime args.endTime x.startTime x.endTime)
              [e] = none := by
          simp only [List.find?]
          rw [Bool.not_eq_true] at hov
          rw [hov]
        rw [hfind] at hred
        rw [hred] at hs
        simp at hs
    · intro hov
      have hov2 : overlaps args.startTime args.endTime e.startTime
          e.endTime = true := (hiff _ _ _ _).mpr hov
      have hfind : List.find? (fun x =>
          overlaps args.startTime args.endTime x.startTime x.endTime)
            [e] = some e := by
        simp only [List.find?]
        rw [hov2]
      rw [hfind] at hred
      exact ⟨_, by rw [hred]⟩
  · intro heq
    have hov : overlaps args.startTime args.endTime e.startTime
        e.endTime = false := by
      simp only [overlaps, Bool.and_eq_false_iff, decide_eq_false_iff_not]
      left
      omega
    have hfind : List.find? (fun x =>
        overlaps args.startTime args.endTime x.startTime x.endTime)
          [e] = none := by
      simp only [List.find?]
      rw [hov]
    rw [hfind] at hred
    rw [hred]
  · intro hwf h1 h2
    have hov2 : overlaps args.startTime args.endTime e.startTime
        e.endTime = true := by
      refine (hiff _ _ _ _).mpr ⟨by omega, by omega⟩
    have hfind : List.find? (fun x =>
        overlaps args.startTime args.endTime x.startTime x.endTime)
          [e] = some e := by
      simp only [List.find?]
      rw [hov2]
    rw [hfind] at hred
    exact ⟨_, by rw [hred]⟩

/-- C2 witness: against the stored window [10, 20] inside the event
window [0, 100], a touching candidate [20, 30] is accepted. -/
theorem c2_strict_overlap_boundary_witness :
    (createSession 0
        ⟨[(1, ⟨0, 100⟩)],
          [(5, ⟨1, "E", none, 0, 10, 20, none, none, .talk, .upcoming⟩)], 6⟩
        1 ⟨"C", none, 0, 20, 30, none, none, .talk, .upcoming⟩).2 =
      .ok (SessionData.toSession 1
        ⟨"C", none, 0, 20, 30, none, none, .talk, .upcoming⟩) :=
  ((c2_strict_overlap_boundary.2 0
      ⟨[(1, ⟨0, 100⟩)],
        [(5, ⟨1, "E", none, 0, 10, 20, none, none, .talk, .upcoming⟩)], 6⟩
      1 ⟨"C", none, 0, 20, 30, none, none, .talk, .upcoming⟩
      ⟨0, 100⟩ ⟨1, "E", none, 0, 10, 20, none, none, .talk, .upcoming⟩
      rfl (by decide) rfl).2.1) rfl

/-- Inserting a session of an event appends it to that event's session
list. -/
theorem sessionsByEvent_insertSession (db : DB) (s : Session)
    (eventId : Nat) (h : s.eventId = eventId) :
    sessionsByEvent (insertSession db s).1 eventId =
      sessionsByEvent db eventId ++ [s] := by
  simp [sessionsByEvent, insertSession, List.filter_append, h]

/-- The insertion loop appends exactly the candidate documents to the
event's session list. -/
theorem sessionsByEvent_insertAll :
    ∀ (sds : List SessionData) (db : DB) (eventId : Nat),
      sessionsByEvent (insertAll db eventId sds).1 eventId =
        sessionsByEvent db eventId ++
          sds.map (SessionData.toSession eventId) := by
  intro sds
  induction sds with
  | nil => intro db eventId; simp [insertAll]
  | cons sd rest ih =>
    intro db eventId
    simp only [insertAll]
    rw [ih, sessionsByEvent_insertSession _ _ _ (by simp [SessionData.toSession])]
    simp

/-- C3: batch creation is atomic: every error outcome leaves the database
unchanged, and a success outcome happens only when phase 1 (every
candidate against the existing store) and phase 2 (every candidate pair)
both passed, in which case exactly the candidate documents are appended. -/
theorem c3_batch_atomicity :
    ∀ (now : Int) (db : DB) (eventId : Nat) (sds : List SessionData),
      (∀ db2 err,
        createMultipleSessions now db eventId sds = (db2, .error err) →
        db2 = db) ∧
      (∀ db2 created,
        createMultipleSessions now db eventId sds = (db2, .ok created) →
        (∃ event, getEvent db eventId = some event ∧
          validateAgainstExisting event (sessionsByEvent db eventId) sds =
            none ∧
          firstPairOverlap sds = none) ∧
        sessionsByEvent db2 eventId =
          sessionsByEvent db eventId ++
            sds.map (SessionData.toSession eventId)) := by
  intro now db eventId sds
  constructor
  · intro db2 err h
    unfold createMultipleSessions at h
    cases hget : getEvent db eventId with
    | none =>
      rw [hget] at h
      injection h with h1 h2
      exact h1.symm
    | some event =>
      rw [hget] at h
      dsimp only at h
      by_cases hn : now > event.endsAt
      · rw [if_pos hn] at h
        injection h with h1 h2
        exact h1.symm
      · rw [if_neg hn] at h
        by_cases hlen : (sds.length == 0) = true
        · rw [if_pos hlen] at h
          injection h with h1 h2
          exact h1.symm
        · rw [if_neg hlen] at h
          cases hval : validateAgainstExisting event
              (sessionsByEvent db eventId) sds with
          | some e2 =>
            rw [hval] at h
            injection h with h1 h2
            exact h1.symm
          | none =>
            rw [hval] at h
            cases hpair : firstPairOverlap sds with
            | some e2 =>
              rw [hpair] at h
              injection h with h1 h2
              exact h1.symm
            | none =>
              rw [hpair] at h
              dsimp only at h
              injection h with h1 h2
              simp at h2
  · intro db2 created h
    unfold createMultipleSessions at h
    cases hget : getEvent db eventId with
    | none =>
      rw [hget] at h
      injection h with h1 h2
      simp at h2
    | some event =>
      rw [hget] at h
      dsimp only at h
      by_cases hn : now > event.endsAt
      · rw [if_pos hn] at h
        injection h with h1 h2
        simp at h2
      · rw [if_neg hn] at h
        by_cases hlen : (sds.length == 0) = true
        · rw [if_pos hlen] at h
          injection h with h1 h2
          simp at h2
        · rw [if_neg hlen] at h
          cases hval : validateAgainstExisting event
              (sessionsByEvent db eventId) sds with
          | some e2 =>
            rw [hval] at h
            injection h with h1 h2
            simp at h2
          | none =>
            rw [hval] at h
            cases hpair : firstPairOverlap sds with
            | some e2 =>
              rw [hpair] at h
              injection h with h1 h2
              simp at h2
            | none =>
              rw [hpair] at h
              dsimp only at h
              injection h with h1 h2
              subst h1
              exact ⟨⟨event, rfl, hval, rfl⟩,
                sessionsByEvent_insertAll sds db eventId⟩

/-- C3 witness: a batch whose second candidate collides with the first is
rejected and leaves the concrete database unchanged. -/
theorem c3_batch_atomicity_witness :
    (createMultipleSessions 0 ⟨[(1, ⟨0, 1000⟩)], [], 0⟩ 1
      [⟨"A", none, 0, 10, 20, none, none, .talk, .upcoming⟩,
       ⟨"B", none, 0, 15, 25, none, none, .talk, .upcoming⟩]).1 =
      ⟨[(1, ⟨0, 1000⟩)], [], 0⟩ :=
  (c3_batch_atomicity 0 ⟨[(1, ⟨0, 1000⟩)], [], 0⟩ 1
    [⟨"A", none, 0, 10, 20, none, none, .talk, .upcoming⟩,
     ⟨"B", none, 0, 15, 25, none, none, .talk, .upcoming⟩]).1
    ⟨[(1, ⟨0, 1000⟩)], [], 0⟩ (.overlapWithinBatch "A" "B") rfl

/-- C8: when `createSession` reports a conflict, the blocking session is
the first element of the event's session list, in supplied order, that
strictly overlaps the candidate: it overlaps, and every session listed
before it does not. -/
theorem c8_first_blocking_in_input_order :
    ∀ (now : Int) (db : DB) (eventId : Nat) (args : SessionData)
      (t : String) (e : Session) (sugg : String) (db2 : DB),
      createSession now db eventId args =
        (db2, .error (.overlapWithExisting t e sugg)) →
      t = args.title ∧
      overlaps args.startTime args.endTime e.startTime e.endTime = true ∧
      ∃ l1 l2, sessionsByEvent db eventId = l1 ++ e :: l2 ∧
        ∀ e2 ∈ l1,
          overlaps args.startTime args.endTime e2.startTime e2.endTime =
            false := by
  intro now db eventId args t e sugg db2 h
  unfold createSession at h
  cases hget : getEvent db eventId with
  | none =>
    rw [hget] at h
    injection h with h1 h2
    simp at h2
  | some event =>
    rw [hget] at h
    dsimp only at h
    by_cases hn : now > event.endsAt
    · rw [if_pos hn] at h
      injection h with h1 h2
      simp at h2
    · rw [if_neg hn] at h
      cases hfind : (sessionsByEvent db eventId).find? (fun x =>
          overlaps args.startTime args.endTime x.startTime x.endTime) with
      | none =>
        rw [hfind] at h
        dsimp only at h
        injection h with h1 h2
        simp at h2
      | some ex =>
        rw [hfind] at h
        dsimp only at h
        injection h with h1 h2
        injection h2 with h3
        injection h3 with ht he hs
        subst ht
        subst he
        obtain ⟨hp, l1, l2, hsplit, hprev⟩ := List.find?_eq_some.mp hfind
        refine ⟨rfl, hp, l1, l2, hsplit, ?_⟩
        intro e2 he2
        have := hprev e2 he2
        rwa [Bool.not_eq_true'] at this

/-- C8 witness: with two stored sessions both overlapping the candidate,
listed later-starting first, the reported blocker is the first listed
(later-starting) one and the decomposition is realized concretely. -/
theorem c8_first_blocking_witness :
    ("Talk" : String) = "Talk" ∧
    overlaps 30 70 50 60 = true ∧
    ∃ l1 l2,
      sessionsByEvent
          ⟨[(1, ⟨0, 1000⟩)],
            [(2, ⟨1, "Late", none, 0, 50, 60, none, none, .talk, .upcoming⟩),
             (3, ⟨1, "Early", none, 0, 10, 40, none, none, .talk,
                .upcoming⟩)], 4⟩ 1 =
        l1 ++ ⟨1, "Late", none, 0, 50, 60, none, none, .talk, .upcoming⟩ ::
          l2 ∧
      ∀ e2 ∈ l1, overlaps 30 70 e2.startTime e2.endTime = false := by
  have h := c8_first_blocking_in_input_order 0
    ⟨[(1, ⟨0, 1000⟩)],
      [(2, ⟨1, "Late", none, 0, 50, 60, none, none, .talk, .upcoming⟩),
       (3, ⟨1, "Early", none, 0, 10, 40, none, none, .talk, .upcoming⟩)], 4⟩
    1 ⟨"Talk", none, 0, 30, 70, none, none, .talk, .upcoming⟩ "Talk"
    ⟨1, "Late", none, 0, 50, 60, none, none, .talk, .upcoming⟩
    (findNextAvailableSlot 40
      [⟨50, 60, "Late"⟩, ⟨10, 40, "Early"⟩] 1000 ⟨50, 60, "Late"⟩)
    ⟨[(1, ⟨0, 1000⟩)],
      [(2, ⟨1, "Late", none, 0, 50, 60, none, none, .talk, .upcoming⟩),
       (3, ⟨1, "Early", none, 0, 10, 40, none, none, .talk, .upcoming⟩)], 4⟩
    rfl
  exact h

/-- C9: `updateSession` only checks existence and then unconditionally
patches the provided fields — no time-range, event-bounds or overlap
check; concretely, starting from a store whose two sessions [0, 10] and
[20, 30] of event 1 are non-overlapping, moving the second to [5, 15]
succeeds and leaves two strictly overlapping sessions of the same event. -/
theorem c9_update_unchecked :
    (∀ (db : DB) (sessionId : Nat) (u : SessionUpdate) (s : Session),
      getSession db sessionId = some s →
      updateSession db sessionId u = (patchInDB db sessionId u,
        .ok sessionId)) ∧
    ((∀ x ∈ sessionsByEvent
        ⟨[(1, ⟨0, 1000⟩)],
          [(1, ⟨1, "A", none, 0, 0, 10, none, none, .talk, .upcoming⟩),
           (2, ⟨1, "B", none, 0, 20, 30, none, none, .talk, .upcoming⟩)],
          3⟩ 1,
      ∀ y ∈ sessionsByEvent
        ⟨[(1, ⟨0, 1000⟩)],
          [(1, ⟨1, "A", none, 0, 0, 10, none, none, .talk, .upcoming⟩),
           (2, ⟨1, "B", none, 0, 20, 30, none, none, .talk, .upcoming⟩)],
          3⟩ 1,
      x ≠ y → overlaps x.startTime x.endTime y.startTime y.endTime =
        false) ∧
    (updateSession
        ⟨[(1, ⟨0, 1000⟩)],
          [(1, ⟨1, "A", none, 0, 0, 10, none, none, .talk, .upcoming⟩),
           (2, ⟨1, "B", none, 0, 20, 30, none, none, .talk, .upcoming⟩)],
          3⟩ 2
        ⟨none, none, none, some 5, some 15, none, none, none,
          .upcoming⟩).2 = .ok 2 ∧
    ∃ a ∈ sessionsByEvent
        (updateSession
          ⟨[(1, ⟨0, 1000⟩)],
            [(1, ⟨1, "A", none, 0, 0, 10, none, none, .talk, .upcoming⟩),
             (2, ⟨1, "B", none, 0, 20, 30, none, none, .talk, .upcoming⟩)],
            3⟩ 2
          ⟨none, none, none, some 5, some 15, none, none, none,
            .upcoming⟩).1 1,
      ∃ b ∈ sessionsByEvent
        (updateSession
          ⟨[(1, ⟨0, 1000⟩)],
            [(1, ⟨1, "A", none, 0, 0, 10, none, none, .talk, .upcoming⟩),
             (2, ⟨1, "B", none, 0, 20, 30, none, none, .talk, .upcoming⟩)],
            3⟩ 2
          ⟨none, none, none, some 5, some 15, none, none, none,
            .upcoming⟩).1 1,
        a ≠ b ∧
        overlaps a.startTime a.endTime b.startTime b.endTime = true) := by
  constructor
  · intro db sessionId u s h
    unfold updateSession
    rw [h]
  · exact ⟨by decide, rfl, by decide⟩

/-- C9 witness: the unconditional-patch half applied to the concrete
store of session 2. -/
theorem c9_update_unchecked_witness :
    updateSession
        ⟨[(1, ⟨0, 1000⟩)],
          [(1, ⟨1, "A", none, 0, 0, 10, none, none, .talk, .upcoming⟩),
           (2, ⟨1, "B", none, 0, 20, 30, none, none, .talk, .upcoming⟩)],
          3⟩ 2
        ⟨none, none, none, some 5, some 15, none, none, none, .upcoming⟩ =
      (patchInDB
        ⟨[(1, ⟨0, 1000⟩)],
          [(1, ⟨1, "A", none, 0, 0, 10, none, none, .talk, .upcoming⟩),
           (2, ⟨1, "B", none, 0, 20, 30, none, none, .talk, .upcoming⟩)],
          3⟩ 2
        ⟨none, none, none, some 5, some 15, none, none, none, .upcoming⟩,
        .ok 2) :=
  c9_update_unchecked.1
    ⟨[(1, ⟨0, 1000⟩)],
      [(1, ⟨1, "A", none, 0, 0, 10, none, none, .talk, .upcoming⟩),
       (2, ⟨1, "B", none, 0, 20, 30, none, none, .talk, .upcoming⟩)],
      3⟩ 2
    ⟨none, none, none, some 5, some 15, none, none, none, .upcoming⟩
    ⟨1, "B", none, 0, 20, 30, none, none, .talk, .upcoming⟩ rfl

/-- Membership is preserved by descending insertion. -/
theorem mem_insertSessionDescByStart (x s : Session) :
    ∀ l : List Session,
      x ∈ insertSessionDescByStart s l ↔ x = s ∨ x ∈ l := by
  intro l
  induction l with
  | nil => simp [insertSessionDescByStart]
  | cons t ts ih =>
    rw [insertSessionDescByStart]
    by_cases hc : s.startTime ≥ t.startTime
    · rw [if_pos hc]
      simp [List.mem_cons]
    · rw [if_neg hc]
      simp only [List.mem_cons, ih]
      tauto

/-- Membership is preserved by the descending sort. -/
theorem mem_sortSessionsDescByStart (x : Session) :
    ∀ l : List Session, x ∈ sortSessionsDescByStart l ↔ x ∈ l := by
  intro l
  induction l with
  | nil => simp [sortSessionsDescByStart]
  | cons s ss ih =>
    rw [sortSessionsDescByStart]
    rw [mem_insertSessionDescByStart]
    simp [List.mem_cons, ih]

/-- Descending insertion preserves the pairwise descending-start
property. -/
theorem pairwise_insertSessionDescByStart (s : Session) :
    ∀ l : List Session,
      l.Pairwise (fun a b => b.startTime ≤ a.startTime) →
      (insertSessionDescByStart s l).Pairwise
        (fun a b => b.startTime ≤ a.startTime) := by
  intro l
  induction l with
  | nil => intro _; simp [insertSessionDescByStart]
  | cons t ts ih =>
    intro h
    obtain ⟨hhead, htail⟩ := List.pairwise_cons.mp h
    rw [insertSessionDescByStart]
    by_cases hc : s.startTime ≥ t.startTime
    · rw [if_pos hc]
      refine List.pairwise_cons.mpr ⟨?_, h⟩
      intro x hx
      rcases List.mem_cons.mp hx with rfl | hx2
      · omega
      · have := hhead x hx2
        omega
    · rw [if_neg hc]
      refine List.pairwise_cons.mpr ⟨?_, ih htail⟩
      intro x hx
      rcases (mem_insertSessionDescByStart x s ts).mp hx with rfl | hx2
      · omega
      · exact hhead x hx2

/-- The descending sort is pairwise descending in `startTime`. -/
theorem pairwise_sortSessionsDescByStart :
    ∀ l : List Session,
      (sortSessionsDescByStart l).Pairwise
        (fun a b => b.startTime ≤ a.startTime) := by
  intro l
  induction l with
  | nil => simp [sortSessionsDescByStart]
  | cons s ss ih =>
    rw [sortSessionsDescByStart]
    exact pairwise_insertSessionDescByStart s _ ih

/-- The head of the descending sort is a member with maximal
`startTime`. -/
theorem head_sortSessionsDescByStart (l : List Session) (s : Session)
    (h : (sortSessionsDescByStart l).head? = some s) :
    s ∈ l ∧ ∀ t ∈ l, t.startTime ≤ s.startTime := by
  cases hs : sortSessionsDescByStart l with
  | nil =>
    rw [hs] at h
    simp at h
  | cons a rest =>
    rw [hs] at h
    simp only [List.head?_cons, Option.some.injEq] at h
    subst h
    have hpw := pairwise_sortSessionsDescByStart l
    rw [hs] at hpw
    obtain ⟨hhead, _⟩ := List.pairwise_cons.mp hpw
    constructor
    · have : a ∈ sortSessionsDescByStart l := by
        rw [hs]
        exact List.mem_cons_self a rest
      exact (mem_sortSessionsDescByStart a l).mp this
    · intro t ht
      have hm : t ∈ sortSessionsDescByStart l :=
        (mem_sortSessionsDescByStart t l).mpr ht
      rw [hs] at hm
      rcases List.mem_cons.mp hm with rfl | hm2
      · exact le_refl _
      · exact hhead t hm2

/-- C10: `getCurrentSession` is null when the event is missing or
`now > event.endsAt`; otherwise it is null exactly when no session of the
event satisfies `startTime ≤ now ≤ endTime` (both endpoints inclusive),
and any returned session satisfies that window condition and has maximal
`startTime` among the sessions that do. -/
theorem c10_current_session :
    ∀ (now : Int) (db : DB) (eventId : Nat),
      (getEvent db eventId = none →
        getCurrentSession now db eventId = none) ∧
      (∀ event, getEvent db eventId = some event → now > event.endsAt →
        getCurrentSession now db eventId = none) ∧
      (∀ event, getEvent db eventId = some event → ¬ now > event.endsAt →
        (getCurrentSession now db eventId = none ↔
          ∀ s ∈ sessionsByEvent db eventId,
            ¬(s.startTime ≤ now ∧ now ≤ s.endTime)) ∧
        (∀ s, getCurrentSession now db eventId = some s →
          s ∈ sessionsByEvent db eventId ∧ s.startTime ≤ now ∧
          now ≤ s.endTime ∧
          ∀ t ∈ sessionsByEvent db eventId,
            t.startTime ≤ now → now ≤ t.endTime →
            t.startTime ≤ s.startTime)) := by
  intro now db eventId
  refine ⟨?_, ?_, ?_⟩
  · intro h
    unfold getCurrentSession
    rw [h]
  · intro event h hn
    unfold getCurrentSession
    rw [h]
    dsimp only
    rw [if_pos hn]
  · intro event h hn
    unfold getCurrentSession
    rw [h]
    dsimp only
    rw [if_neg hn]
    set cur := (sessionsByEvent db eventId).filter (fun s =>
      decide (s.startTime ≤ now) && decide (s.endTime ≥ now)) with hcur
    have hcur_nil_iff : cur = [] ↔
        ∀ s ∈ sessionsByEvent db eventId,
          ¬(s.startTime ≤ now ∧ now ≤ s.endTime) := by
      rw [hcur, List.filter_eq_nil_iff]
      constructor
      · intro hall s hs hcond
        have := hall s hs
        simp only [Bool.and_eq_true, decide_eq_true_eq, not_and] at this
        exact absurd (by omega : s.endTime ≥ now) (this hcond.1)
      · intro hall s hs
        have := hall s hs
        simp only [Bool.and_eq_true, decide_eq_true_eq, not_and]
        intro h1 h2
        exact this ⟨h1, by omega⟩
    constructor
    · constructor
      · intro hnone
        rcases hc : cur with _ | ⟨a, rest⟩
        · exact hcur_nil_iff.mp hc
        · exfalso
          rw [hc] at hnone
          simp only [List.length_cons, Nat.succ_ne_zero, beq_iff_eq,
            if_false] at hnone
          have hmema : a ∈ sortSessionsDescByStart (a :: rest) :=
            (mem_sortSessionsDescByStart a (a :: rest)).mpr
              (List.mem_cons_self a rest)
          cases hs : sortSessionsDescByStart (a :: rest) with
          | nil => rw [hs] at hmema; simp at hmema
          | cons b r2 =>
            rw [hs] at hnone
            simp at hnone
      · intro hall
        have hnil : cur = [] := hcur_nil_iff.mpr hall
        rw [hnil]
        simp
    · intro s hsome
      by_cases hlen : (cur.length == 0) = true
      · rw [if_pos hlen] at hsome
        simp at hsome
      · rw [if_neg hlen] at hsome
        obtain ⟨hmem, hmax⟩ := head_sortSessionsDescByStart cur s hsome
        rw [hcur] at hmem
        obtain ⟨hsin, hp⟩ := List.mem_filter.mp hmem
        simp only [Bool.and_eq_true, decide_eq_true_eq] at hp
        refine ⟨hsin, hp.1, by omega, ?_⟩
        intro t ht h1 h2
        have htin : t ∈ cur := by
          rw [hcur]
          exact List.mem_filter.mpr ⟨ht, by
            simp only [Bool.and_eq_true, decide_eq_true_eq]
            exact ⟨h1, by omega⟩⟩
        exact hmax t htin

/-- C10 witness: at clock 25 over sessions [0, 30] and [20, 40] of a live
event, the returned current session is the later-starting [20, 40]. -/
theorem c10_current_session_witness :
    ⟨1, "B", none, 0, 20, 40, none, none, .talk, .upcoming⟩ ∈
      sessionsByEvent
        ⟨[(1, ⟨0, 1000⟩)],
          [(1, ⟨1, "A", none, 0, 0, 30, none, none, .talk, .upcoming⟩),
           (2, ⟨1, "B", none, 0, 20, 40, none, none, .talk, .upcoming⟩)],
          3⟩ 1 ∧
    (20 : Int) ≤ 25 ∧ (25 : Int) ≤ 40 ∧
    ∀ t ∈ sessionsByEvent
        ⟨[(1, ⟨0, 1000⟩)],
          [(1, ⟨1, "A", none, 0, 0, 30, none, none, .talk, .upcoming⟩),
           (2, ⟨1, "B", none, 0, 20, 40, none, none, .talk, .upcoming⟩)],
          3⟩ 1,
      t.startTime ≤ 25 → 25 ≤ t.endTime → t.startTime ≤ 20 :=
  (c10_current_session 25
    ⟨[(1, ⟨0, 1000⟩)],
      [(1, ⟨1, "A", none, 0, 0, 30, none, none, .talk, .upcoming⟩),
       (2, ⟨1, "B", none, 0, 20, 40, none, none, .talk, .upcoming⟩)],
      3⟩ 1).2.2 ⟨0, 1000⟩ rfl (by decide) |>.2
    ⟨1, "B", none, 0, 20, 40, none, none, .talk, .upcoming⟩ rfl

/-- Membership is preserved by ascending slot insertion. -/
theorem mem_insertSlotByStart (x s : TimeSlot) :
    ∀ l : List TimeSlot, x ∈ insertSlotByStart s l ↔ x = s ∨ x ∈ l := by
  intro l
  induction l with
  | nil => simp [insertSlotByStart]
  | cons t ts ih =>
    rw [insertSlotByStart]
    by_cases hc : s.startTime ≤ t.startTime
    · rw [if_pos hc]
      simp [List.mem_cons]
    · rw [if_neg hc]
      simp only [List.mem_cons, ih]
      tauto

/-- Membership is preserved by the ascending slot sort. -/
theorem mem_sortSlotsByStart (x : TimeSlot) :
    ∀ l : List TimeSlot, x ∈ sortSlotsByStart l ↔ x ∈ l := by
  intro l
  induction l with
  | nil => simp [sortSlotsByStart]
  | cons s ss ih =>
    rw [sortSlotsByStart, mem_insertSlotByStart]
    simp [List.mem_cons, ih]

/-- The acceptance condition of the immediately-after probe, stated as the
claim words it: the probe slot ends by the event end and no session with a
different `startTime` than the blocking one strictly overlaps it. -/
def probeSpecOk (sessionDuration : Int) (existingSessions : List TimeSlot)
    (eventEndsAt : Int) (blocking : TimeSlot) : Prop :=
  blocking.endTime + sessionDuration ≤ eventEndsAt ∧
  ∀ s ∈ existingSessions, s.startTime ≠ blocking.startTime →
    ¬(s.startTime < blocking.endTime + sessionDuration ∧
      s.endTime > blocking.endTime)

instance (d : Int) (ex : List TimeSlot) (eEnd : Int) (blk : TimeSlot) :
    Decidable (probeSpecOk d ex eEnd blk) := by
  unfold probeSpecOk
  infer_instance

/-- The part of `findNextAvailableSlot` that runs only when the
immediately-after probe is not accepted: the gap scan, then the tail
probe, then the fallback. -/
def restAfterProbe (sessionDuration : Int)
    (existingSessions : List TimeSlot) (eventEndsAt : Int) : String :=
  match gapScan sessionDuration (sortSlotsByStart existingSessions) with
  | some msg => msg
  | none =>
    tailThenFallback sessionDuration (sortSlotsByStart existingSessions)
      eventEndsAt

/-- The Boolean probe guard of `findNextAvailableSlot` holds exactly when
`probeSpecOk` does. -/
theorem probe_guard_iff (d : Int) (ex : List TimeSlot) (eEnd : Int)
    (blk : TimeSlot) :
    (decide (blk.endTime + d ≤ eEnd) &&
      !((sortSlotsByStart ex).any fun s =>
        decide (s.startTime < blk.endTime + d) &&
        decide (s.endTime > blk.endTime) &&
        (s.startTime != blk.startTime))) = true ↔
    probeSpecOk d ex eEnd blk := by
  rw [probeSpecOk]
  simp only [Bool.and_eq_true, decide_eq_true_eq, Bool.not_eq_true',
    List.any_eq_false, bne_iff_ne]
  constructor
  · intro ⟨h1, h2⟩
    refine ⟨h1, fun s hs hne hov =>
      h2 s ((mem_sortSlotsByStart s ex).mpr hs) ⟨hov, hne⟩⟩
  · intro ⟨h1, h2⟩
    refine ⟨h1, fun s hs => ?_⟩
    rintro ⟨hov, hne⟩
    exact h2 s ((mem_sortSlotsByStart s ex).mp hs) hne hov

/-- C4: the immediately-after probe is decided first: when `probeSpecOk`
holds the suggestion is to start at the blocking session's end, and when
it fails the result is exactly the gap-scan / tail-probe / fallback
remainder. -/
theorem c4_probe_first (d : Int) (ex : List TimeSlot) (eEnd : Int)
    (blk : TimeSlot) :
    (probeSpecOk d ex eEnd blk →
      findNextAvailableSlot d ex eEnd blk =
        "Try starting at " ++ formatTimeForError blk.endTime) ∧
    (¬probeSpecOk d ex eEnd blk →
      findNextAvailableSlot d ex eEnd blk = restAfterProbe d ex eEnd) := by
  constructor
  · intro hp
    unfold findNextAvailableSlot
    rw [if_pos ((probe_guard_iff d ex eEnd blk).mpr hp)]
  · intro hp
    unfold findNextAvailableSlot
    rw [if_neg (fun hc => hp ((probe_guard_iff d ex eEnd blk).mp hc))]
    rfl

/-- C4 witness: with only the blocking slot [10, 20] stored, event end 100
and duration 30, the probe is accepted and suggests its end. -/
theorem c4_probe_first_witness :
    probeSpecOk 30 [⟨10, 20, "E"⟩] 100 ⟨10, 20, "E"⟩ ∧
    findNextAvailableSlot 30 [⟨10, 20, "E"⟩] 100 ⟨10, 20, "E"⟩ =
      "Try starting at " ++ formatTimeForError 20 :=
  ⟨by decide,
    (c4_probe_first 30 [⟨10, 20, "E"⟩] 100 ⟨10, 20, "E"⟩).1 (by decide)⟩

/-- C5: with existing sessions 09:00-10:00 and 11:00-12:00 (millisecond
timestamps of those times of day), blocking session 09:00-10:00, duration
90 minutes and any event end at or after 13:30, the probe 10:00-11:30 is
rejected (it strictly overlaps 11:00-12:00), the only gap is too small,
and the tail probe suggests starting at 12:00. -/
theorem c5_scenario2 (eEnd : Int) (h : 48600000 ≤ eEnd) :
    findNextAvailableSlot 5400000
      [⟨32400000, 36000000, "Morning"⟩, ⟨39600000, 43200000, "Late"⟩] eEnd
      ⟨32400000, 36000000, "Morning"⟩ =
      "Try starting at " ++ formatTimeForError 43200000 := by
  unfold findNextAvailableSlot
  dsimp only
  have hany : ((sortSlotsByStart
      [⟨32400000, 36000000, "Morning"⟩, ⟨39600000, 43200000, "Late"⟩]).any
      fun s => decide (s.startTime < 36000000 + 5400000) &&
        decide (s.endTime > 36000000) && (s.startTime != 32400000)) =
      true := by decide
  rw [hany]
  simp only [Bool.not_true, Bool.and_false, Bool.false_eq_true, if_false]
  rw [show gapScan 5400000 (sortSlotsByStart
      [⟨32400000, 36000000, "Morning"⟩, ⟨39600000, 43200000, "Late"⟩]) =
      none from rfl]
  rw [show sortSlotsByStart
      [⟨32400000, 36000000, "Morning"⟩, ⟨39600000, 43200000, "Late"⟩] =
      [⟨32400000, 36000000, "Morning"⟩, ⟨39600000, 43200000, "Late"⟩]
      from rfl]
  unfold tailThenFallback
  rw [show List.getLast?
      [(⟨32400000, 36000000, "Morning"⟩ : TimeSlot),
       ⟨39600000, 43200000, "Late"⟩] = some ⟨39600000, 43200000, "Late"⟩
      from rfl]
  dsimp only
  rw [if_pos (by omega)]

/-- C5 witness: the scenario evaluated at event end exactly 13:30. -/
theorem c5_scenario2_witness :
    findNextAvailableSlot 5400000
      [⟨32400000, 36000000, "Morning"⟩, ⟨39600000, 43200000, "Late"⟩]
      48600000 ⟨32400000, 36000000, "Morning"⟩ =
      "Try starting at " ++ formatTimeForError 43200000 :=
  c5_scenario2 48600000 (by decide)

/-- Every message produced by the gap scan suggests a concrete window of
the requested duration. -/
theorem gapScan_shape (d : Int) :
    ∀ (l : List TimeSlot) (msg : String), gapScan d l = some msg →
      ∃ a, msg = "Try " ++ formatTimeForError a ++ " - " ++
        formatTimeForError (a + d) := by
  intro l
  induction l with
  | nil => intro msg h; simp [gapScan] at h
  | cons a rest ih =>
    cases rest with
    | nil => intro msg h; simp [gapScan] at h
    | cons b rest2 =>
      intro msg h
      rw [gapScan] at h
      by_cases hc : b.startTime - a.endTime ≥ d
      · rw [if_pos hc] at h
        injection h with h2
        exact ⟨a.endTime, h2.symm⟩
      · rw [if_neg hc] at h
        exact ih msg h

/-- A string of positive length is not empty. -/
theorem ne_empty_of_length_pos (s : String) (h : 0 < s.length) :
    s ≠ "" := by
  intro he
  subst he
  exact absurd h (by decide)

/-- A rendered slot range is a nonempty string. -/
theorem slotPiece_length (a b : Int) :
    0 < (formatTimeForError a ++ " - " ++ formatTimeForError b).length := by
  have h3 : (" - " : String).length = 3 := rfl
  simp only [String.length_append]
  omega

/-- Joining a list headed by a nonempty string is nonempty. -/
theorem joinComma_ne_empty (x : String) (xs : List String)
    (hx : 0 < x.length) : joinComma (x :: xs) ≠ "" := by
  cases xs with
  | nil => exact ne_empty_of_length_pos x hx
  | cons y ys =>
    apply ne_empty_of_length_pos
    rw [show joinComma (x :: y :: ys) = x ++ ", " ++ joinComma (y :: ys)
      from rfl]
    simp only [String.length_append]
    omega

/-- With at least one sorted slot, the fallback takes the already-booked
branch listing the first (up to) three slots. -/
theorem fallbackMessage_cons (x : TimeSlot) (xs : List TimeSlot) :
    fallbackMessage (x :: xs) = "Already booked: " ++
      joinComma (((x :: xs).take 3).map fun s =>
        formatTimeForError s.startTime ++ " - " ++
        formatTimeForError s.endTime) ++
      ". Please choose a different time" := by
  have hbs : joinComma (((x :: xs).take 3).map fun s =>
      formatTimeForError s.startTime ++ " - " ++
      formatTimeForError s.endTime) ≠ "" := by
    rw [List.take_succ_cons, List.map_cons]
    exact joinComma_ne_empty _ _ (slotPiece_length _ _)
  unfold fallbackMessage
  rw [if_neg (by simpa using hbs)]

/-- C7: `findNextAvailableSlot` always returns one of its five branch
messages — probe or tail suggestion, gap suggestion, already-booked
listing of the up-to-three earliest slots, or the generic message — and
with no existing sessions and no room after the blocking session it
returns the generic choose-a-different-time-slot message. -/
theorem c7_totality (d : Int) (ex : List TimeSlot) (eEnd : Int)
    (blk : TimeSlot) :
    ((∃ t, findNextAvailableSlot d ex eEnd blk =
        "Try starting at " ++ formatTimeForError t) ∨
      (∃ a, findNextAvailableSlot d ex eEnd blk =
        "Try " ++ formatTimeForError a ++ " - " ++
          formatTimeForError (a + d)) ∨
      (ex ≠ [] ∧ findNextAvailableSlot d ex eEnd blk =
        "Already booked: " ++
          joinComma (((sortSlotsByStart ex).take 3).map fun s =>
            formatTimeForError s.startTime ++ " - " ++
            formatTimeForError s.endTime) ++
          ". Please choose a different time") ∨
      findNextAvailableSlot d ex eEnd blk =
        "Please choose a different time slot") ∧
    (ex = [] → eEnd < blk.endTime + d →
      findNextAvailableSlot d ex eEnd blk =
        "Please choose a different time slot") := by
  constructor
  · unfold findNextAvailableSlot
    dsimp only
    split
    · left
      exact ⟨blk.endTime, rfl⟩
    · rcases hg : gapScan d (sortSlotsByStart ex) with _ | msg
      · dsimp only
        unfold tailThenFallback
        rcases hl : (sortSlotsByStart ex).getLast? with _ | last
        · dsimp only
          right; right; right
          have hnil : sortSlotsByStart ex = [] := by
            cases hs : sortSlotsByStart ex with
            | nil => rfl
            | cons p ps => rw [hs] at hl; simp [List.getLast?] at hl
          rw [hnil]
          rfl
        · dsimp only
          by_cases hfit : last.endTime + d ≤ eEnd
          · rw [if_pos hfit]
            left
            exact ⟨last.endTime, rfl⟩
          · rw [if_neg hfit]
            right; right; left
            constructor
            · intro hex
              subst hex
              simp [sortSlotsByStart] at hl
            · cases hs : sortSlotsByStart ex with
              | nil => rw [hs] at hl; simp at hl
              | cons p ps =>
                exact fallbackMessage_cons p ps
      · dsimp only
        right; left
        obtain ⟨a, ha⟩ := gapScan_shape d _ msg hg
        exact ⟨a, by rw [ha]⟩
  · intro hex hlt
    subst hex
    unfold findNextAvailableSlot
    simp only [sortSlotsByStart, List.any_nil, Bool.not_false, Bool.and_true,
      decide_eq_true_eq]
    rw [if_neg (by omega)]
    rfl

/-- C7 witness: with no existing sessions and an event end before the
probe can fit, the generic message is returned. -/
theorem c7_totality_witness :
    findNextAvailableSlot 10 [] 5 ⟨0, 3, "X"⟩ =
      "Please choose a different time slot" :=
  (c7_totality 10 [] 5 ⟨0, 3, "X"⟩).2 rfl (by decide)
